import Mathlib

/-!
Verification of the SSE streaming adapter in
`letta/server/rest_api/utils.py` (functions `sse_formatter`,
`sse_async_generator`, `log_error_to_sentry`).

The embedding is shallow and executable:

* Python values that can reach `sse_formatter` are modelled by `Payload`,
  distinguishing exact `dict`, exact `str`, strict `dict` subclasses and
  any other runtime type (the `assert type(data) in [dict, str]` check is
  about exact runtime types).
* `json.dumps(data, separators=(",", ":"))` on the (flat) dictionaries the
  adapter serializes is modelled by `json_dumps` over `JObj`, including
  the default `ensure_ascii` escaping of the standard library encoder.
* The upstream async generator is modelled as a finite list of yielded
  chunks followed by either normal exhaustion or a raised exception
  (`genFailure`); this captures failure at any point, including before the
  first chunk (empty chunk list).
* The exception classes `ContextWindowExceededError` and
  `RateLimitExceededError` live in `letta/errors.py`, which is not part of
  the sampled sources; they are modelled from the spec as carrying a
  message (their `str()` rendering) and an optional machine-readable code
  whose string value is what `str(e.code.value)` produces.
* `LettaUsageStatistics` (from `letta/schemas/usage.py`, also outside the
  sampled sources) is modelled from the spec as a structured record whose
  `model_dump()` is a dictionary of its fields.
* The adapter body is translated into the pure function
  `sse_async_generator` producing a trace of `Event`s: yielded frames,
  calls to the error sink (`log_error_to_sentry`), and the await of the
  usage task.  The projections `framesOf` and `reportsOf` recover the
  yielded SSE frames and the reported exceptions.
-/

namespace SSEModel

/-- Hexadecimal digit characters, lower case, as produced by the standard
library JSON encoder in `\uXXXX` escapes. -/
def hexDigit (n : Nat) : Char :=
  match n % 16 with
  | 0 => '0' | 1 => '1' | 2 => '2' | 3 => '3' | 4 => '4'
  | 5 => '5' | 6 => '6' | 7 => '7' | 8 => '8' | 9 => '9'
  | 10 => 'a' | 11 => 'b' | 12 => 'c' | 13 => 'd' | 14 => 'e'
  | _ => 'f'

/-- Four hex digits, most significant first, for a code point below 2^16. -/
def hex4 (n : Nat) : String :=
  String.mk [hexDigit (n / 4096), hexDigit (n / 256), hexDigit (n / 16), hexDigit n]

/-- Escaping of one character inside a JSON string literal, following the
CPython `json` encoder with its default `ensure_ascii=True`: the named
two-character escapes, `\uXXXX` for remaining control characters and for
all non-ASCII characters, and surrogate pairs above the basic plane. -/
def escapeChar (c : Char) : String :=
  if c = '"' then "\\\""
  else if c = '\\' then "\\\\"
  else if c = '\n' then "\\n"
  else if c = '\r' then "\\r"
  else if c = '\t' then "\\t"
  else if c.toNat = 8 then "\\b"
  else if c.toNat = 12 then "\\f"
  else if c.toNat < 32 then "\\u" ++ hex4 c.toNat
  else if c.toNat ≤ 126 then String.singleton c
  else if c.toNat < 65536 then "\\u" ++ hex4 c.toNat
  else
    "\\u" ++ hex4 (55296 + (c.toNat - 65536) / 1024) ++
    "\\u" ++ hex4 (56320 + (c.toNat - 65536) % 1024)

/-- Escape a list of characters, concatenating the per-character escapes. -/
def escList : List Char → String
  | [] => ""
  | c :: cs => escapeChar c ++ escList cs

/-- JSON string literal for `s`, double quotes included. -/
def escapeString (s : String) : String :=
  "\"" ++ escList s.data ++ "\""

/-- Decimal digit character for `n % 10`. -/
def digitChar (n : Nat) : Char :=
  match n % 10 with
  | 0 => '0' | 1 => '1' | 2 => '2' | 3 => '3' | 4 => '4'
  | 5 => '5' | 6 => '6' | 7 => '7' | 8 => '8' | _ => '9'

/-- Decimal digits of `n`, most significant first, accumulated onto `acc`;
structural recursion on a fuel argument (`fuel ≥ n` always suffices, since
the value shrinks by a factor of ten each step). -/
def natDigitsGo : Nat → Nat → List Char → List Char
  | 0, n, acc => digitChar n :: acc
  | fuel + 1, n, acc =>
    if n < 10 then digitChar n :: acc
    else natDigitsGo fuel (n / 10) (digitChar n :: acc)

/-- Decimal representation of a natural number, as Python `str` renders it. -/
def natRepr (n : Nat) : String := String.mk (natDigitsGo n n [])

/-- Decimal representation of an integer, as Python `str` renders it. -/
def intRepr (i : Int) : String :=
  if i < 0 then "-" ++ natRepr i.natAbs else natRepr i.natAbs

/-- Scalar JSON values appearing in the (flat) dictionaries the adapter
serializes: strings, integers, booleans and `None`. -/
inductive JVal where
  | jstr (s : String)
  | jnum (n : Int)
  | jbool (b : Bool)
  | jnull
deriving DecidableEq, Repr

/-- A Python `dict` with string keys in insertion order (CPython dicts
preserve insertion order, and `json.dumps` serializes keys in that order). -/
def JObj := List (String × JVal)
deriving DecidableEq, Repr

/-- Serialization of one scalar value by `json.dumps`. -/
def dumpVal : JVal → String
  | .jstr s => escapeString s
  | .jnum n => intRepr n
  | .jbool b => if b then "true" else "false"
  | .jnull => "null"

/-- Comma-joined list of already-serialized entries (the `","` item
separator of `json.dumps(..., separators=(",", ":"))`). -/
def joinComma : List String → String
  | [] => ""
  | [s] => s
  | s :: rest => s ++ "," ++ joinComma rest

/-- `json.dumps(d, separators=(",", ":"))` on a flat dictionary: compact
JSON with `,` between items and `:` between key and value, no whitespace. -/
def json_dumps (d : JObj) : String :=
  "\x7b" ++ joinComma (d.map fun kv => escapeString kv.1 ++ ":" ++ dumpVal kv.2) ++ "\x7d"

/-- A Python value arriving at `sse_formatter`, classified by exact runtime
type, which is what `assert type(data) in [dict, str]` inspects:
an exact `str`, an exact `dict`, an instance of a strict subclass of
`dict` (still answers `isinstance(x, dict)`), or any other type.
`tyRepr` carries the `str(type(data))` rendering used in the assertion
message. -/
inductive Payload where
  | pyStr (s : String)
  | pyDict (d : JObj)
  | pyDictSub (tyRepr : String) (d : JObj)
  | pyOther (tyRepr : String)
deriving DecidableEq, Repr

/-- The `str(type(data))` rendering of a payload whose exact type is
neither `dict` nor `str`. -/
def pyTypeRepr : Payload → String
  | .pyStr _ => "<class 'str'>"
  | .pyDict _ => "<class 'dict'>"
  | .pyDictSub ty _ => ty
  | .pyOther ty => ty

/-- The frame built for an exact string payload:
`f"data: \x7bdata_str\x7d\n\n"`. -/
def frameStr (s : String) : String := "data: " ++ s ++ "\n\n"

/-- The frame built for an exact dict payload: serialize compactly, then
frame. -/
def frameDict (d : JObj) : String := frameStr (json_dumps d)

/-- `sse_formatter` from `letta/server/rest_api/utils.py`:

    def sse_formatter(data: Union[dict, str]) -> str:
        assert type(data) in [dict, str], f"Expected type dict or str, got type \x7btype(data)\x7d"
        data_str = json.dumps(data, separators=(",", ":")) if isinstance(data, dict) else data
        return f"data: \x7bdata_str\x7d\n\n"

A failed `assert` raises `AssertionError`, modelled as `Except.error`
carrying the assertion message. -/
def sse_formatter (data : Payload) : Except String String :=
  match data with
  | .pyDict d => .ok (frameStr (json_dumps d))
  | .pyStr s => .ok (frameStr s)
  | p => .error ("Expected type dict or str, got type " ++ pyTypeRepr p)

/-- `SSE_FINISH_MSG = "[DONE]"  # mimic openai` -/
def SSE_FINISH_MSG : String := "[DONE]"

/-- One chunk yielded by the upstream generator, classified by how the
adapter's `isinstance` dispatch treats it:
a pydantic `BaseModel` (carrying the dictionary its `model_dump()`
returns), an `Enum` member (carrying the string `str(chunk.value)`),
an exact `dict`, an instance of a strict `dict` subclass that is neither a
`BaseModel` nor an `Enum` (carrying its `str(type(...))` rendering and its
mapping content), or any other value (carrying the string `str(chunk)`). -/
inductive Chunk where
  | baseModel (fields : JObj)
  | enumV (valueStr : String)
  | dictC (d : JObj)
  | dictSub (tyRepr : String) (d : JObj)
  | other (strRepr : String)
deriving DecidableEq, Repr

/-- The normalization performed on each chunk inside the `async for` loop:

    if isinstance(chunk, BaseModel): chunk = chunk.model_dump()
    elif isinstance(chunk, Enum): chunk = str(chunk.value)
    elif not isinstance(chunk, dict): chunk = str(chunk)

A strict `dict` subclass answers `isinstance(chunk, dict)`, so it falls
through all three branches unchanged and keeps its subclass runtime type. -/
def normalize (c : Chunk) : Payload :=
  match c with
  | .baseModel fields => .pyDict fields
  | .enumV valueStr => .pyStr valueStr
  | .dictC d => .pyDict d
  | .dictSub ty d => .pyDictSub ty d
  | .other s => .pyStr s

/-- Exceptions relevant to the adapter.  `contextWindowExceeded` and
`rateLimitExceeded` model `ContextWindowExceededError` and
`RateLimitExceededError` from `letta/errors.py` (not among the sampled
sources); modelled from the spec: each carries a message (its `str()`
rendering) and an optional structured code whose string value is carried
directly (`str(e.code.value)`; an enum member in `e.code` is always
truthy, `None` is falsy).  `valueError` and `assertionError` model the
built-in exceptions the adapter itself can raise, `otherExn` any other
`Exception`. -/
inductive PyExn where
  | contextWindowExceeded (msg : String) (code : Option String)
  | rateLimitExceeded (msg : String) (code : Option String)
  | valueError (msg : String)
  | assertionError (msg : String)
  | otherExn (msg : String)
deriving DecidableEq, Repr

/-- The `str(e)` rendering of an exception (for the named letta errors,
modelled from the spec: their message). -/
def exnMsg : PyExn → String
  | .contextWindowExceeded msg _ => msg
  | .rateLimitExceeded msg _ => msg
  | .valueError msg => msg
  | .assertionError msg => msg
  | .otherExn msg => msg

/-- Whether the exception is one of the two usage-task failure kinds with
their own `except` clauses. -/
def isNamedUsageExn : PyExn → Bool
  | .contextWindowExceeded _ _ => true
  | .rateLimitExceeded _ _ => true
  | _ => false

/-- The value a completed usage task resolved to: a `LettaUsageStatistics`
record (carrying its `model_dump()` dictionary, modelled from the spec) or
a value of any other type (carrying its `str(type(...))` rendering). -/
inductive UsageValue where
  | stats (fields : JObj)
  | nonStats (tyRepr : String)
deriving DecidableEq, Repr

/-- Outcome of awaiting the usage task: it resolved to a value or raised. -/
inductive UsageOutcome where
  | resolved (v : UsageValue)
  | raised (e : PyExn)
deriving DecidableEq, Repr

/-- One observable step of the adapter: an SSE frame yielded to the
transport, a call `log_error_to_sentry(e)` to the error sink, or the
`await usage_task` suspension. -/
inductive Event where
  | frame (s : String)
  | report (e : PyExn)
  | awaitedUsage
deriving DecidableEq, Repr

/-- The frames yielded along a trace, in order. -/
def framesOf (t : List Event) : List String :=
  t.filterMap fun ev => match ev with | .frame s => some s | _ => none

/-- The exceptions reported to the error sink along a trace, in order. -/
def reportsOf (t : List Event) : List PyExn :=
  t.filterMap fun ev => match ev with | .report e => some e | _ => none

/-- The generic frame of the outer `except Exception` handler:
`sse_formatter(\x7b"error": "Stream failed (decoder encountered an error)"\x7d)`. -/
def decoderFrame : String :=
  frameDict [("error", .jstr "Stream failed (decoder encountered an error)")]

/-- The generic frame of the inner `except Exception` handler; note the
source spells "occured":
`sse_formatter(\x7b"error": f"Stream failed (internal error occured)"\x7d)`. -/
def internalFrame : String :=
  frameDict [("error", .jstr "Stream failed (internal error occured)")]

/-- JSON value of the `code` field:
`str(e.code.value) if e.code else None`. -/
def codeJson : Option String → JVal
  | some c => .jstr c
  | none => .jnull

/-- The frame of the two named usage-failure handlers:
`sse_formatter(\x7b"error": f"Stream failed: \x7be\x7d", "code": str(e.code.value) if e.code else None\x7d)`. -/
def usageErrFrame (msg : String) (code : Option String) : String :=
  frameDict [("error", .jstr ("Stream failed: " ++ msg)), ("code", codeJson code)]

/-- The `async for` loop of `sse_async_generator`: normalize each chunk and
yield its frame.  If `sse_formatter` raises (its assertion fails), the
loop stops: the events so far are kept and the exception propagates to the
outer `except Exception` handler; no later chunk is requested. -/
def chunkLoop : List Chunk → List Event × Option PyExn
  | [] => ([], none)
  | c :: rest =>
    match sse_formatter (normalize c) with
    | .ok f =>
      let r := chunkLoop rest
      (Event.frame f :: r.1, r.2)
    | .error m => ([], some (.assertionError m))

/-- The `if usage_task is not None:` block, reached only when the chunk
sequence was exhausted without an exception.  Awaiting the task either
resolves (then a non-`LettaUsageStatistics` value raises
`ValueError(f"Expected LettaUsageStatistics, got \x7btype(usage)\x7d")`, caught by
the inner `except Exception`) or raises; `ContextWindowExceededError` and
`RateLimitExceededError` have dedicated handlers, every other `Exception`
is folded into the generic internal-error frame.  Every handler reports to
the sink before yielding. -/
def usageEvents (usage_task : Option UsageOutcome) : List Event :=
  match usage_task with
  | none => []
  | some r =>
    Event.awaitedUsage ::
      match r with
      | .resolved (.stats fields) => [Event.frame (frameDict fields)]
      | .resolved (.nonStats ty) =>
        [Event.report (.valueError ("Expected LettaUsageStatistics, got " ++ ty)),
         Event.frame internalFrame]
      | .raised (.contextWindowExceeded msg code) =>
        [Event.report (.contextWindowExceeded msg code),
         Event.frame (usageErrFrame msg code)]
      | .raised (.rateLimitExceeded msg code) =>
        [Event.report (.rateLimitExceeded msg code),
         Event.frame (usageErrFrame msg code)]
      | .raised e => [Event.report e, Event.frame internalFrame]

/-- `sse_async_generator(generator, usage_task=None, finish_message=True)`.
The upstream generator is modelled as the list of chunks it yields
followed by `genFailure`: `none` for normal exhaustion, `some e` when it
raises `e` instead of ending.  The outer `except Exception` turns any
failure of the loop body or of the generator into one report plus the
generic decoder-error frame (and then no further chunk is requested and
the usage task is never awaited); the `finally` block appends
`sse_formatter(SSE_FINISH_MSG)` exactly when `finish_message` is set. -/
def sse_async_generator (chunks : List Chunk) (genFailure : Option PyExn)
    (usage_task : Option UsageOutcome) (finish_message : Bool) : List Event :=
  let r := chunkLoop chunks
  let body :=
    match r.2 with
    | some e => r.1 ++ [Event.report e, Event.frame decoderFrame]
    | none =>
      match genFailure with
      | some e => r.1 ++ [Event.report e, Event.frame decoderFrame]
      | none => r.1 ++ usageEvents usage_task
  body ++ (if finish_message then [Event.frame (frameStr SSE_FINISH_MSG)] else [])

/-- Side effects of one `log_error_to_sentry(e)` call. -/
structure SinkEffect where
  printedTraceback : Bool
  warned : Bool
  warningMsg : String
  capturedToSentry : Bool
deriving DecidableEq, Repr

/-- `log_error_to_sentry` from `letta/server/rest_api/utils.py`:
always prints the traceback and issues
`warnings.warn(f"SSE stream generator failed: \x7be\x7d")`, and calls
`sentry_sdk.capture_exception(e)` exactly when
`os.getenv("SENTRY_DSN") is not None and os.getenv("SENTRY_DSN") != ""`.
The environment lookup is passed in as `sentryDsn`. -/
def log_error_to_sentry (sentryDsn : Option String) (e : PyExn) : SinkEffect :=
  { printedTraceback := true
    warned := true
    warningMsg := "SSE stream generator failed: " ++ exnMsg e
    capturedToSentry := match sentryDsn with | none => false | some s => !(s == "") }

/-- Whether the framer accepts the chunk once normalized, i.e. the chunk is
not an instance of a strict `dict` subclass. -/
def wellShaped (c : Chunk) : Bool :=
  match c with
  | .dictSub _ _ => false
  | _ => true

/-- The frame a well-shaped chunk produces (junk for ill-shaped chunks,
which never produce a frame). -/
def chunkFrame (c : Chunk) : String :=
  match c with
  | .baseModel fields => frameDict fields
  | .enumV valueStr => frameStr valueStr
  | .dictC d => frameDict d
  | .dictSub _ _ => ""
  | .other s => frameStr s

/-- The frames the `finally` block contributes. -/
def doneIf (finish_message : Bool) : List String :=
  if finish_message then [frameStr SSE_FINISH_MSG] else []

/-- Executable check of the SSE body shape after the `"data: "` prefix:
true exactly when the remaining characters are a newline-free middle
followed by `"\n\n"`, optionally followed by one more final newline (the
`$` anchor of the wire-format regex also matches just before a final
newline). -/
def sseBodyOk : List Char → Bool
  | [] => false
  | c :: rest =>
    if c = '\n' then rest = ['\n'] || rest = ['\n', '\n']
    else sseBodyOk rest

/-- Executable match of the wire-format regex `^data: .*\n\n$` (with `.`
not matching a newline, per default regex semantics). -/
def sseMatch (cs : List Char) : Bool :=
  match cs with
  | 'd' :: 'a' :: 't' :: 'a' :: ':' :: ' ' :: rest => sseBodyOk rest
  | _ => false

/-- Whether a frame string matches `^data: .*\n\n$`. -/
def matchesSSE (s : String) : Bool := sseMatch s.data

/-- Whether the normalization of a chunk is guaranteed to contain no raw
newline: dictionary-shaped chunks are JSON-escaped, and ill-shaped chunks
never yield a content frame, so only the two string-producing variants
need their string to be newline-free. -/
def noNLChunk (c : Chunk) : Bool :=
  match c with
  | .enumV v => !(v.data.contains '\n')
  | .other s => !(s.data.contains '\n')
  | _ => true

/-! ### Helper lemmas -/

theorem framesOf_append (t1 t2 : List Event) :
    framesOf (t1 ++ t2) = framesOf t1 ++ framesOf t2 := by
  simp [framesOf, List.filterMap_append]

theorem reportsOf_append (t1 t2 : List Event) :
    reportsOf (t1 ++ t2) = reportsOf t1 ++ reportsOf t2 := by
  simp [reportsOf, List.filterMap_append]

theorem framesOf_map_chunkFrame (l : List Chunk) :
    framesOf (l.map fun c => Event.frame (chunkFrame c)) = l.map chunkFrame := by
  induction l with
  | nil => rfl
  | cons c rest ih => simpa [framesOf, List.filterMap_cons] using ih

theorem reportsOf_map_chunkFrame (l : List Chunk) :
    reportsOf (l.map fun c => Event.frame (chunkFrame c)) = [] := by
  induction l with
  | nil => rfl
  | cons c rest ih =>
    simp only [List.map_cons, reportsOf, List.filterMap_cons] at *
    exact ih

theorem awaitedUsage_not_mem_map_chunkFrame (l : List Chunk) :
    Event.awaitedUsage ∉ (l.map fun c => Event.frame (chunkFrame c)) := by
  simp [List.mem_map]

theorem sse_formatter_wellShaped (c : Chunk) (h : wellShaped c = true) :
    sse_formatter (normalize c) = Except.ok (chunkFrame c) := by
  cases c <;> simp_all [wellShaped, normalize, sse_formatter, chunkFrame, frameDict]

theorem chunkLoop_ok (chunks : List Chunk) :
    (∀ c ∈ chunks, wellShaped c = true) →
    chunkLoop chunks = (chunks.map fun c => Event.frame (chunkFrame c), none) := by
  induction chunks with
  | nil => intro _; rfl
  | cons c rest ih =>
    intro h
    have hc : sse_formatter (normalize c) = Except.ok (chunkFrame c) :=
      sse_formatter_wellShaped c (h c (by simp))
    have hrest := ih fun x hx => h x (by simp [hx])
    simp [chunkLoop, hc, hrest]

theorem chunkLoop_bad (pre : List Chunk) (ty : String) (d : JObj) (post : List Chunk) :
    (∀ c ∈ pre, wellShaped c = true) →
    chunkLoop (pre ++ Chunk.dictSub ty d :: post) =
      (pre.map fun c => Event.frame (chunkFrame c),
       some (.assertionError ("Expected type dict or str, got type " ++ ty))) := by
  induction pre with
  | nil =>
    intro _
    simp [chunkLoop, sse_formatter, normalize, pyTypeRepr]
  | cons c rest ih =>
    intro h
    have hc : sse_formatter (normalize c) = Except.ok (chunkFrame c) :=
      sse_formatter_wellShaped c (h c (by simp))
    have hrest := ih fun x hx => h x (by simp [hx])
    simp [chunkLoop, hc, hrest]

theorem sse_ok_trace (chunks : List Chunk) (usage_task : Option UsageOutcome)
    (finish_message : Bool) (hw : ∀ c ∈ chunks, wellShaped c = true) :
    sse_async_generator chunks none usage_task finish_message =
      (chunks.map fun c => Event.frame (chunkFrame c)) ++ usageEvents usage_task ++
      (if finish_message then [Event.frame (frameStr SSE_FINISH_MSG)] else []) := by
  have hcl := chunkLoop_ok chunks hw
  simp [sse_async_generator, hcl]

theorem sse_fail_trace (chunks : List Chunk) (e : PyExn) (usage_task : Option UsageOutcome)
    (finish_message : Bool) (hw : ∀ c ∈ chunks, wellShaped c = true) :
    sse_async_generator chunks (some e) usage_task finish_message =
      (chunks.map fun c => Event.frame (chunkFrame c)) ++
      [Event.report e, Event.frame decoderFrame] ++
      (if finish_message then [Event.frame (frameStr SSE_FINISH_MSG)] else []) := by
  have hcl := chunkLoop_ok chunks hw
  simp [sse_async_generator, hcl]

theorem sse_bad_trace (pre : List Chunk) (ty : String) (d : JObj) (post : List Chunk)
    (genFailure : Option PyExn) (usage_task : Option UsageOutcome) (finish_message : Bool)
    (hw : ∀ c ∈ pre, wellShaped c = true) :
    sse_async_generator (pre ++ Chunk.dictSub ty d :: post) genFailure usage_task
        finish_message =
      (pre.map fun c => Event.frame (chunkFrame c)) ++
      [Event.report (.assertionError ("Expected type dict or str, got type " ++ ty)),
       Event.frame decoderFrame] ++
      (if finish_message then [Event.frame (frameStr SSE_FINISH_MSG)] else []) := by
  have hcl := chunkLoop_bad pre ty d post hw
  simp [sse_async_generator, hcl]

/-! ### Characters appearing in serialized JSON contain no raw newline -/

theorem hexDigit_ne_nl (n : Nat) : hexDigit n ≠ '\n' := by
  unfold hexDigit
  split <;> decide

theorem hex4_noNL (n : Nat) : '\n' ∉ (hex4 n).data := by
  intro h
  simp only [hex4, List.mem_cons, List.not_mem_nil, or_false] at h
  rcases h with h | h | h | h <;> exact hexDigit_ne_nl _ h.symm

set_option maxHeartbeats 2000000 in
theorem escapeChar_noNL (c : Char) : '\n' ∉ (escapeChar c).data := by
  unfold escapeChar
  split_ifs with h1 h2 h3 h4 h5 h6 h7 h8 h9 h10
  all_goals intro hm
  · revert hm; decide
  · revert hm; decide
  · revert hm; decide
  · revert hm; decide
  · revert hm; decide
  · revert hm; decide
  · revert hm; decide
  · rw [String.data_append] at hm
    rcases List.mem_append.mp hm with hm | hm
    · revert hm; decide
    · exact hex4_noNL _ hm
  · have : '\n' = c := by simpa [String.singleton] using hm
    exact h3 this.symm
  · rw [String.data_append] at hm
    rcases List.mem_append.mp hm with hm | hm
    · revert hm; decide
    · exact hex4_noNL _ hm
  · rw [String.data_append, String.data_append, String.data_append] at hm
    rcases List.mem_append.mp hm with hm | hm
    · rcases List.mem_append.mp hm with hm | hm
      · rcases List.mem_append.mp hm with hm | hm
        · revert hm; decide
        · exact hex4_noNL _ hm
      · revert hm; decide
    · exact hex4_noNL _ hm

theorem escList_noNL (cs : List Char) : '\n' ∉ (escList cs).data := by
  induction cs with
  | nil => decide
  | cons c rest ih =>
    intro h
    rw [escList, String.data_append] at h
    rcases List.mem_append.mp h with h | h
    · exact escapeChar_noNL c h
    · exact ih h

theorem escapeString_noNL (s : String) : '\n' ∉ (escapeString s).data := by
  intro h
  rw [escapeString, String.data_append, String.data_append] at h
  rcases List.mem_append.mp h with h | h
  · rcases List.mem_append.mp h with h | h
    · revert h; decide
    · exact escList_noNL _ h
  · revert h; decide

theorem digitChar_ne_nl (n : Nat) : digitChar n ≠ '\n' := by
  unfold digitChar
  split <;> decide

theorem natDigitsGo_noNL (fuel : Nat) :
    ∀ n acc, '\n' ∉ acc → '\n' ∉ natDigitsGo fuel n acc := by
  induction fuel with
  | zero =>
    intro n acc hacc h
    rw [natDigitsGo] at h
    rcases List.mem_cons.mp h with h | h
    · exact digitChar_ne_nl n h.symm
    · exact hacc h
  | succ fuel ih =>
    intro n acc hacc h
    rw [natDigitsGo] at h
    split_ifs at h with hn
    · rcases List.mem_cons.mp h with h | h
      · exact digitChar_ne_nl n h.symm
      · exact hacc h
    · refine ih (n / 10) (digitChar n :: acc) ?_ h
      intro hmem
      rcases List.mem_cons.mp hmem with hmem | hmem
      · exact digitChar_ne_nl n hmem.symm
      · exact hacc hmem

theorem natRepr_noNL (n : Nat) : '\n' ∉ (natRepr n).data := by
  have := natDigitsGo_noNL n n [] (by simp)
  simpa [natRepr] using this

theorem intRepr_noNL (i : Int) : '\n' ∉ (intRepr i).data := by
  rw [intRepr]
  split_ifs
  · intro h
    rw [String.data_append] at h
    rcases List.mem_append.mp h with h | h
    · revert h; decide
    · exact natRepr_noNL _ h
  · exact natRepr_noNL _

theorem dumpVal_noNL (v : JVal) : '\n' ∉ (dumpVal v).data := by
  cases v with
  | jstr s => exact escapeString_noNL s
  | jnum n => exact intRepr_noNL n
  | jbool b => cases b <;> decide
  | jnull => decide

theorem joinComma_noNL (l : List String) :
    (∀ s ∈ l, '\n' ∉ s.data) → '\n' ∉ (joinComma l).data := by
  induction l with
  | nil => intro _; decide
  | cons s rest ih =>
    intro h
    cases rest with
    | nil => exact h s (by simp)
    | cons b t =>
      have hj : joinComma (s :: b :: t) = s ++ "," ++ joinComma (b :: t) := rfl
      rw [hj]
      intro hm
      rw [String.data_append, String.data_append] at hm
      rcases List.mem_append.mp hm with hm | hm
      · rcases List.mem_append.mp hm with hm | hm
        · exact h s (by simp) hm
        · revert hm; decide
      · exact ih (fun x hx => h x (by simp [hx])) hm

theorem json_dumps_noNL (d : JObj) : '\n' ∉ (json_dumps d).data := by
  intro h
  rw [json_dumps, String.data_append, String.data_append] at h
  rcases List.mem_append.mp h with h | h
  · rcases List.mem_append.mp h with h | h
    · revert h; decide
    · refine joinComma_noNL _ ?_ h
      intro s hs
      rcases List.mem_map.mp hs with ⟨kv, _, rfl⟩
      intro hm
      rw [String.data_append, String.data_append] at hm
      rcases List.mem_append.mp hm with hm | hm
      · rcases List.mem_append.mp hm with hm | hm
        · exact escapeString_noNL _ hm
        · revert hm; decide
      · exact dumpVal_noNL _ hm
  · revert h; decide

/-! ### Wire-format matching -/

theorem sseBodyOk_append (cs : List Char) :
    '\n' ∉ cs → sseBodyOk (cs ++ ['\n', '\n']) = true := by
  induction cs with
  | nil => intro _; decide
  | cons c rest ih =>
    intro h
    have hc : ¬(c = '\n') := fun he => h (by simp [he])
    simpa [sseBodyOk, hc] using ih fun hm => h (by simp [hm])

theorem matchesSSE_frameStr (s : String) (h : '\n' ∉ s.data) :
    matchesSSE (frameStr s) = true := by
  have hd : (frameStr s).data = 'd' :: 'a' :: 't' :: 'a' :: ':' :: ' ' :: (s.data ++ ['\n', '\n']) := by
    rw [frameStr, String.data_append, String.data_append]
    rfl
  rw [matchesSSE, hd]
  simpa [sseMatch] using sseBodyOk_append s.data h

theorem matchesSSE_frameDict (d : JObj) : matchesSSE (frameDict d) = true :=
  matchesSSE_frameStr _ (json_dumps_noNL d)

theorem matchesSSE_ne_empty (s : String) (h : matchesSSE s = true) : s ≠ "" := by
  intro he
  subst he
  exact absurd h (by decide)

theorem framesOf_chunkLoop_good (chunks : List Chunk) :
    (∀ c ∈ chunks, noNLChunk c = true) →
    ∀ f ∈ framesOf (chunkLoop chunks).1, matchesSSE f = true := by
  induction chunks with
  | nil => intro _ f hf; simp [chunkLoop, framesOf] at hf
  | cons c rest ih =>
    intro h f hf
    have hrest := ih fun x hx => h x (by simp [hx])
    cases c with
    | baseModel fields =>
      have hcl : (chunkLoop (Chunk.baseModel fields :: rest)).1 =
          Event.frame (frameDict fields) :: (chunkLoop rest).1 := rfl
      rw [hcl] at hf
      have he : framesOf (Event.frame (frameDict fields) :: (chunkLoop rest).1) =
          frameDict fields :: framesOf (chunkLoop rest).1 := rfl
      rw [he] at hf
      rcases List.mem_cons.mp hf with rfl | hf
      · exact matchesSSE_frameDict fields
      · exact hrest f hf
    | enumV v =>
      have hcl : (chunkLoop (Chunk.enumV v :: rest)).1 =
          Event.frame (frameStr v) :: (chunkLoop rest).1 := rfl
      rw [hcl] at hf
      have he : framesOf (Event.frame (frameStr v) :: (chunkLoop rest).1) =
          frameStr v :: framesOf (chunkLoop rest).1 := rfl
      rw [he] at hf
      rcases List.mem_cons.mp hf with rfl | hf
      · have hv : ('\n' ∉ v.data) :=
          of_decide_eq_true (by simpa [noNLChunk] using h (Chunk.enumV v) (by simp))
        exact matchesSSE_frameStr v hv
      · exact hrest f hf
    | dictC d =>
      have hcl : (chunkLoop (Chunk.dictC d :: rest)).1 =
          Event.frame (frameDict d) :: (chunkLoop rest).1 := rfl
      rw [hcl] at hf
      have he : framesOf (Event.frame (frameDict d) :: (chunkLoop rest).1) =
          frameDict d :: framesOf (chunkLoop rest).1 := rfl
      rw [he] at hf
      rcases List.mem_cons.mp hf with rfl | hf
      · exact matchesSSE_frameDict d
      · exact hrest f hf
    | dictSub ty d =>
      have hcl : (chunkLoop (Chunk.dictSub ty d :: rest)).1 = [] := rfl
      rw [hcl] at hf
      simp [framesOf] at hf
    | other s =>
      have hcl : (chunkLoop (Chunk.other s :: rest)).1 =
          Event.frame (frameStr s) :: (chunkLoop rest).1 := rfl
      rw [hcl] at hf
      have he : framesOf (Event.frame (frameStr s) :: (chunkLoop rest).1) =
          frameStr s :: framesOf (chunkLoop rest).1 := rfl
      rw [he] at hf
      rcases List.mem_cons.mp hf with rfl | hf
      · have hs : ('\n' ∉ s.data) :=
          of_decide_eq_true (by simpa [noNLChunk] using h (Chunk.other s) (by simp))
        exact matchesSSE_frameStr s hs
      · exact hrest f hf

theorem framesOf_usageEvents_good (usage_task : Option UsageOutcome) :
    ∀ f ∈ framesOf (usageEvents usage_task), matchesSSE f = true := by
  intro f hf
  match usage_task with
  | none => simp [usageEvents, framesOf] at hf
  | some (.resolved (.stats fields)) =>
    simp [usageEvents, framesOf] at hf
    subst hf
    exact matchesSSE_frameDict fields
  | some (.resolved (.nonStats ty)) =>
    simp [usageEvents, framesOf] at hf
    subst hf
    exact matchesSSE_frameDict _
  | some (.raised e) =>
    cases e <;> simp [usageEvents, framesOf] at hf <;> subst hf <;>
      exact matchesSSE_frameDict _

/-! ### Claim theorems -/

/-- C6: the framer is a pure function mapping a string payload `s` to
`"data: " ++ s ++ "\n\n"`, a dict payload to `"data: "` plus its compact
JSON serialization (`,` and `:` separators, no surrounding whitespace)
plus `"\n\n"`, and failing with an assertion-style error on every payload
of any other runtime type; the last conjunct exhibits the compact
separators on a concrete dictionary. -/
theorem c6_theorem :
    (∀ s : String, sse_formatter (.pyStr s) = .ok ("data: " ++ s ++ "\n\n")) ∧
    (∀ d : JObj, sse_formatter (.pyDict d) = .ok ("data: " ++ json_dumps d ++ "\n\n")) ∧
    (∀ ty d, sse_formatter (.pyDictSub ty d) =
      .error ("Expected type dict or str, got type " ++ ty)) ∧
    (∀ ty, sse_formatter (.pyOther ty) =
      .error ("Expected type dict or str, got type " ++ ty)) ∧
    json_dumps [("error", .jstr "x"), ("code", .jnull), ("n", .jnum 12)] =
      "\x7b\"error\":\"x\",\"code\":null,\"n\":12\x7d" :=
  ⟨fun _ => rfl, fun _ => rfl, fun _ _ => rfl, fun _ => rfl, by decide⟩

/-- C8: framing is deterministic; applying the framer to the same payload
twice produces identical output strings (the framer is a pure function of
its payload, with no embedded timestamps or randomness). -/
theorem c8_theorem (p q : Payload) (h : p = q) : sse_formatter p = sse_formatter q := by
  rw [h]

/-- Witness for C8 at a concrete payload. -/
theorem c8_witness :
    sse_formatter (.pyStr "chunk") = sse_formatter (.pyStr "chunk") :=
  c8_theorem (.pyStr "chunk") (.pyStr "chunk") rfl

/-- C1 counterexample: for a chunk that is an instance of a strict `dict`
subclass the adapter does not emit a frame obtained by normalizing and
framing the chunk (neither the compact JSON of its mapping nor its
generic string conversion): it emits the generic decoder-error frame, so
the claimed "one Event Frame per chunk, each obtained by normalizing the
chunk ... and then framing it" fails at this input. -/
theorem c1_claim_counterexample :
    framesOf (sse_async_generator [Chunk.dictSub "<class 'MyDict'>" [("a", .jstr "b")]]
        none none true) = [decoderFrame, frameStr SSE_FINISH_MSG] ∧
    decoderFrame ≠ frameDict [("a", JVal.jstr "b")] ∧
    decoderFrame ≠ frameStr "\x7b'a': 'b'\x7d" := by
  decide

/-- C1 (amended: no chunk is an instance of a strict `dict` subclass —
that case terminates the stream with the decoder-error frame instead, see
the dispatch in C9): for every finite chunk sequence produced without
failure, with the usage task absent or resolved to a valid usage record,
the output is exactly one frame per chunk in producer order (per the
normalization dispatch), then the framed usage record if a task was
supplied, then the terminal marker if enabled; nothing reordered,
duplicated or omitted. -/
theorem c1_amended_theorem (chunks : List Chunk) (usage_task : Option UsageOutcome)
    (finish_message : Bool)
    (hw : ∀ c ∈ chunks, wellShaped c = true)
    (hu : usage_task = none ∨ ∃ f, usage_task = some (.resolved (.stats f))) :
    framesOf (sse_async_generator chunks none usage_task finish_message) =
      chunks.map chunkFrame ++
      (match usage_task with
       | some (.resolved (.stats f)) => [frameDict f]
       | _ => []) ++
      doneIf finish_message := by
  rw [sse_ok_trace chunks usage_task finish_message hw]
  simp only [framesOf_append, framesOf_map_chunkFrame]
  rcases hu with rfl | ⟨f, rfl⟩ <;>
    cases finish_message <;> simp [usageEvents, framesOf, doneIf]

/-- Witness for C1 (amended) covering all four normalization shapes and a
supplied usage record. -/
theorem c1_amended_witness :
    framesOf (sse_async_generator
        [Chunk.baseModel [("id", .jstr "m1")], Chunk.enumV "done", Chunk.dictC [("k", .jnum 3)],
         Chunk.other "text"]
        none (some (.resolved (.stats [("total_tokens", .jnum 7)]))) true) =
      [Chunk.baseModel [("id", .jstr "m1")], Chunk.enumV "done", Chunk.dictC [("k", .jnum 3)],
       Chunk.other "text"].map chunkFrame ++
      [frameDict [("total_tokens", .jnum 7)]] ++ doneIf true :=
  c1_amended_theorem _ _ _ (by decide)
    (Or.inr ⟨[("total_tokens", .jnum 7)], rfl⟩)

/-- C2: when the upstream generator raises any failure after yielding `k`
well-shaped chunks, the output is exactly the `k` chunk frames, one
generic decoder-error frame, and the terminal marker if enabled — never
more, never fewer; the failure is reported to the error sink, and the
usage task is never awaited on this path. -/
theorem c2_theorem (chunks : List Chunk) (e : PyExn) (usage_task : Option UsageOutcome)
    (finish_message : Bool)
    (hw : ∀ c ∈ chunks, wellShaped c = true) :
    framesOf (sse_async_generator chunks (some e) usage_task finish_message) =
      chunks.map chunkFrame ++ [decoderFrame] ++ doneIf finish_message ∧
    reportsOf (sse_async_generator chunks (some e) usage_task finish_message) = [e] ∧
    Event.awaitedUsage ∉ sse_async_generator chunks (some e) usage_task finish_message := by
  rw [sse_fail_trace chunks e usage_task finish_message hw]
  simp only [framesOf_append, framesOf_map_chunkFrame, reportsOf_append,
    reportsOf_map_chunkFrame]
  refine ⟨?_, ?_, ?_⟩ <;>
    cases finish_message <;>
      simp [framesOf, reportsOf, doneIf, List.mem_append, List.mem_map]

/-- Witness for C2: failure after two chunks, usage task supplied. -/
theorem c2_witness :
    framesOf (sse_async_generator [Chunk.other "a", Chunk.dictC []]
        (some (.otherExn "boom")) (some (.resolved (.stats []))) true) =
      [Chunk.other "a", Chunk.dictC []].map chunkFrame ++ [decoderFrame] ++ doneIf true ∧
    reportsOf (sse_async_generator [Chunk.other "a", Chunk.dictC []]
        (some (.otherExn "boom")) (some (.resolved (.stats []))) true) = [.otherExn "boom"] ∧
    Event.awaitedUsage ∉ sse_async_generator [Chunk.other "a", Chunk.dictC []]
        (some (.otherExn "boom")) (some (.resolved (.stats []))) true :=
  c2_theorem _ _ _ _ (by decide)

/-- C3: after normal exhaustion of the chunk sequence, a
context-window-exceeded or rate-limit-exceeded failure of the usage task
is reported to the error sink and surfaced as an Error Frame whose
`error` field is `"Stream failed: "` followed by the failure message and
whose `code` field carries the string value of the structured code when
one is present and JSON `null` otherwise; in particular a carried code
`"context_window_exceeded"` appears verbatim as the frame's `code`
field. -/
theorem c3_theorem (chunks : List Chunk) (msg : String) (code : Option String)
    (finish_message : Bool) (hw : ∀ c ∈ chunks, wellShaped c = true) :
    (framesOf (sse_async_generator chunks none
        (some (.raised (.contextWindowExceeded msg code))) finish_message) =
      chunks.map chunkFrame ++ [usageErrFrame msg code] ++ doneIf finish_message ∧
     reportsOf (sse_async_generator chunks none
        (some (.raised (.contextWindowExceeded msg code))) finish_message) =
      [.contextWindowExceeded msg code]) ∧
    (framesOf (sse_async_generator chunks none
        (some (.raised (.rateLimitExceeded msg code))) finish_message) =
      chunks.map chunkFrame ++ [usageErrFrame msg code] ++ doneIf finish_message ∧
     reportsOf (sse_async_generator chunks none
        (some (.raised (.rateLimitExceeded msg code))) finish_message) =
      [.rateLimitExceeded msg code]) ∧
    usageErrFrame msg code =
      frameDict [("error", .jstr ("Stream failed: " ++ msg)), ("code", codeJson code)] ∧
    codeJson (some "context_window_exceeded") = .jstr "context_window_exceeded" := by
  refine ⟨⟨?_, ?_⟩, ⟨?_, ?_⟩, rfl, rfl⟩ <;>
    rw [sse_ok_trace chunks _ finish_message hw] <;>
      simp only [framesOf_append, framesOf_map_chunkFrame, reportsOf_append,
        reportsOf_map_chunkFrame] <;>
        cases finish_message <;> simp [usageEvents, framesOf, reportsOf, doneIf]

/-- Witness for C3 with a carried `"context_window_exceeded"` code. -/
theorem c3_witness :
    (framesOf (sse_async_generator [Chunk.other "a"] none
        (some (.raised (.contextWindowExceeded "ctx overflow"
          (some "context_window_exceeded")))) true) =
      [Chunk.other "a"].map chunkFrame ++
      [usageErrFrame "ctx overflow" (some "context_window_exceeded")] ++ doneIf true ∧
     reportsOf (sse_async_generator [Chunk.other "a"] none
        (some (.raised (.contextWindowExceeded "ctx overflow"
          (some "context_window_exceeded")))) true) =
      [.contextWindowExceeded "ctx overflow" (some "context_window_exceeded")]) ∧
    (framesOf (sse_async_generator [Chunk.other "a"] none
        (some (.raised (.rateLimitExceeded "ctx overflow"
          (some "context_window_exceeded")))) true) =
      [Chunk.other "a"].map chunkFrame ++
      [usageErrFrame "ctx overflow" (some "context_window_exceeded")] ++ doneIf true ∧
     reportsOf (sse_async_generator [Chunk.other "a"] none
        (some (.raised (.rateLimitExceeded "ctx overflow"
          (some "context_window_exceeded")))) true) =
      [.rateLimitExceeded "ctx overflow" (some "context_window_exceeded")]) ∧
    usageErrFrame "ctx overflow" (some "context_window_exceeded") =
      frameDict [("error", .jstr ("Stream failed: " ++ "ctx overflow")),
        ("code", codeJson (some "context_window_exceeded"))] ∧
    codeJson (some "context_window_exceeded") = .jstr "context_window_exceeded" :=
  c3_theorem [Chunk.other "a"] "ctx overflow" (some "context_window_exceeded") true (by decide)

/-- C4 counterexample: the generic internal-error frame produced by the
code spells "occured", so the claimed byte-exact message text
"Stream failed (internal error occurred)" does not match the emitted
frame. -/
theorem c4_claim_counterexample :
    framesOf (sse_async_generator [] none (some (.raised (.otherExn "boom"))) false) =
      [internalFrame] ∧
    internalFrame ≠
      frameDict [("error", JVal.jstr "Stream failed (internal error occurred)")] := by
  decide

/-- C4 (amended: the emitted message is the source's spelling
"Stream failed (internal error occured)"): after normal chunk exhaustion,
a usage-task failure other than context-window-exceeded or
rate-limit-exceeded, or a resolution to a value that is not a usage
record, does not crash the adapter: it reports to the error sink and
emits exactly the generic internal-error frame, leaking no detail of the
underlying failure. -/
theorem c4_amended_theorem (chunks : List Chunk) (finish_message : Bool)
    (hw : ∀ c ∈ chunks, wellShaped c = true) :
    (∀ e : PyExn, isNamedUsageExn e = false →
      framesOf (sse_async_generator chunks none (some (.raised e)) finish_message) =
        chunks.map chunkFrame ++ [internalFrame] ++ doneIf finish_message ∧
      reportsOf (sse_async_generator chunks none (some (.raised e)) finish_message) = [e]) ∧
    (∀ ty : String,
      framesOf (sse_async_generator chunks none (some (.resolved (.nonStats ty)))
          finish_message) =
        chunks.map chunkFrame ++ [internalFrame] ++ doneIf finish_message ∧
      reportsOf (sse_async_generator chunks none (some (.resolved (.nonStats ty)))
          finish_message) =
        [.valueError ("Expected LettaUsageStatistics, got " ++ ty)]) ∧
    internalFrame = frameDict [("error", .jstr "Stream failed (internal error occured)")] := by
  refine ⟨?_, ?_, rfl⟩
  · intro e he
    constructor <;>
      rw [sse_ok_trace chunks _ finish_message hw] <;>
        simp only [framesOf_append, framesOf_map_chunkFrame, reportsOf_append,
          reportsOf_map_chunkFrame] <;>
          cases e <;> simp_all [isNamedUsageExn] <;>
            cases finish_message <;> simp [usageEvents, framesOf, reportsOf, doneIf]
  · intro ty
    constructor <;>
      rw [sse_ok_trace chunks _ finish_message hw] <;>
        simp only [framesOf_append, framesOf_map_chunkFrame, reportsOf_append,
          reportsOf_map_chunkFrame] <;>
          cases finish_message <;> simp [usageEvents, framesOf, reportsOf, doneIf]

/-- Witness for C4 (amended): a `ValueError`-style failure and a
non-record resolution, one chunk, marker enabled. -/
theorem c4_amended_witness :
    (∀ e : PyExn, isNamedUsageExn e = false →
      framesOf (sse_async_generator [Chunk.dictC []] none (some (.raised e)) true) =
        [Chunk.dictC []].map chunkFrame ++ [internalFrame] ++ doneIf true ∧
      reportsOf (sse_async_generator [Chunk.dictC []] none (some (.raised e)) true) = [e]) ∧
    (∀ ty : String,
      framesOf (sse_async_generator [Chunk.dictC []] none
          (some (.resolved (.nonStats ty))) true) =
        [Chunk.dictC []].map chunkFrame ++ [internalFrame] ++ doneIf true ∧
      reportsOf (sse_async_generator [Chunk.dictC []] none
          (some (.resolved (.nonStats ty))) true) =
        [.valueError ("Expected LettaUsageStatistics, got " ++ ty)]) ∧
    internalFrame = frameDict [("error", .jstr "Stream failed (internal error occured)")] :=
  c4_amended_theorem [Chunk.dictC []] true (by decide)

/-- C5 counterexample: when a plain chunk stringifies to exactly
`"[DONE]"`, its content frame coincides with the terminal marker frame,
so with the flag enabled the frame `"data: [DONE]\n\n"` occurs twice in
the output (not exactly once), and with the flag disabled it still occurs
(it is not "never emitted"). -/
theorem c5_claim_counterexample :
    (framesOf (sse_async_generator [Chunk.other "[DONE]"] none none true)).count
        (frameStr SSE_FINISH_MSG) = 2 ∧
    frameStr SSE_FINISH_MSG ∈
      framesOf (sse_async_generator [Chunk.other "[DONE]"] none none false) := by
  decide

/-- C5 (amended: counting occurrences of the literal marker string is
exact only when no content frame happens to equal it): on every exit
path, enabling the flag appends the terminal marker frame as the final
item of the output and disabling it omits exactly that final frame with
all other output unchanged; whenever no other emitted frame equals the
marker, the marker occurs exactly once with the flag enabled. -/
theorem c5_amended_theorem (chunks : List Chunk) (genFailure : Option PyExn)
    (usage_task : Option UsageOutcome) :
    framesOf (sse_async_generator chunks genFailure usage_task true) =
      framesOf (sse_async_generator chunks genFailure usage_task false) ++
      [frameStr SSE_FINISH_MSG] ∧
    (frameStr SSE_FINISH_MSG ∉
        framesOf (sse_async_generator chunks genFailure usage_task false) →
      (framesOf (sse_async_generator chunks genFailure usage_task true)).count
        (frameStr SSE_FINISH_MSG) = 1) := by
  have h1 : sse_async_generator chunks genFailure usage_task true =
      sse_async_generator chunks genFailure usage_task false ++
      [Event.frame (frameStr SSE_FINISH_MSG)] := by
    simp [sse_async_generator]
  refine ⟨?_, ?_⟩
  · rw [h1, framesOf_append]
    rfl
  · intro hnot
    rw [h1, framesOf_append]
    have : framesOf [Event.frame (frameStr SSE_FINISH_MSG)] = [frameStr SSE_FINISH_MSG] := rfl
    rw [this, List.count_append]
    rw [List.count_eq_zero.mpr hnot]
    simp

/-- Witness for C5 (amended) on a stream with one ordinary chunk. -/
theorem c5_amended_witness :
    framesOf (sse_async_generator [Chunk.other "hi"] none none true) =
      framesOf (sse_async_generator [Chunk.other "hi"] none none false) ++
      [frameStr SSE_FINISH_MSG] ∧
    (framesOf (sse_async_generator [Chunk.other "hi"] none none true)).count
      (frameStr SSE_FINISH_MSG) = 1 :=
  ⟨(c5_amended_theorem [Chunk.other "hi"] none none).1,
   (c5_amended_theorem [Chunk.other "hi"] none none).2 (by decide)⟩

/-- C9: a chunk whose runtime type is a strict subclass of `dict` (and not
a pydantic model or enum) passes through the `isinstance(chunk, dict)`
dispatch unchanged (last conjunct), the framer's exact-type assertion then
fails, and the stream is terminated with the generic decoder-error frame
instead of a frame carrying the chunk's content: the output is the frames
of the preceding well-shaped chunks, the decoder-error frame, and the
terminal marker if enabled; the assertion failure is the one reported
exception, later chunks produce nothing, and the usage task is never
awaited. -/
theorem c9_theorem (pre : List Chunk) (ty : String) (d : JObj) (post : List Chunk)
    (genFailure : Option PyExn) (usage_task : Option UsageOutcome) (finish_message : Bool)
    (hw : ∀ c ∈ pre, wellShaped c = true) :
    framesOf (sse_async_generator (pre ++ Chunk.dictSub ty d :: post) genFailure
        usage_task finish_message) =
      pre.map chunkFrame ++ [decoderFrame] ++ doneIf finish_message ∧
    reportsOf (sse_async_generator (pre ++ Chunk.dictSub ty d :: post) genFailure
        usage_task finish_message) =
      [.assertionError ("Expected type dict or str, got type " ++ ty)] ∧
    Event.awaitedUsage ∉ sse_async_generator (pre ++ Chunk.dictSub ty d :: post) genFailure
        usage_task finish_message ∧
    normalize (Chunk.dictSub ty d) = Payload.pyDictSub ty d := by
  rw [sse_bad_trace pre ty d post genFailure usage_task finish_message hw]
  simp only [framesOf_append, framesOf_map_chunkFrame, reportsOf_append,
    reportsOf_map_chunkFrame]
  refine ⟨?_, ?_, ?_, rfl⟩ <;>
    cases finish_message <;>
      simp [framesOf, reportsOf, doneIf, List.mem_append, List.mem_map]

/-- Witness for C9: one good chunk, then an `OrderedDict`-style subclass
instance, then a further chunk that is never reached. -/
theorem c9_witness :
    framesOf (sse_async_generator
        ([Chunk.other "a"] ++ Chunk.dictSub "<class 'collections.OrderedDict'>"
          [("k", .jstr "v")] :: [Chunk.other "never"]) none
        (some (.resolved (.stats []))) true) =
      [Chunk.other "a"].map chunkFrame ++ [decoderFrame] ++ doneIf true ∧
    reportsOf (sse_async_generator
        ([Chunk.other "a"] ++ Chunk.dictSub "<class 'collections.OrderedDict'>"
          [("k", .jstr "v")] :: [Chunk.other "never"]) none
        (some (.resolved (.stats []))) true) =
      [.assertionError
        ("Expected type dict or str, got type " ++ "<class 'collections.OrderedDict'>")] ∧
    Event.awaitedUsage ∉ sse_async_generator
        ([Chunk.other "a"] ++ Chunk.dictSub "<class 'collections.OrderedDict'>"
          [("k", .jstr "v")] :: [Chunk.other "never"]) none
        (some (.resolved (.stats []))) true ∧
    normalize (Chunk.dictSub "<class 'collections.OrderedDict'>" [("k", .jstr "v")]) =
      Payload.pyDictSub "<class 'collections.OrderedDict'>" [("k", .jstr "v")] :=
  c9_theorem [Chunk.other "a"] "<class 'collections.OrderedDict'>" [("k", .jstr "v")]
    [Chunk.other "never"] none (some (.resolved (.stats []))) true (by decide)

/-- C10: when the usage task resolves to a value that is not a
`LettaUsageStatistics` record, the adapter awaits the task, reports the
type mismatch as a `ValueError` to the error sink immediately before
yielding the generic internal-error frame (the full trace equality fixes
this ordering), and the sink call prints the stack trace, issues a local
warning, and forwards the exception to the remote monitoring service
exactly when the `SENTRY_DSN` environment variable is set and
non-empty. -/
theorem c10_theorem (chunks : List Chunk) (ty : String) (finish_message : Bool)
    (sentryDsn : Option String) (hw : ∀ c ∈ chunks, wellShaped c = true) :
    sse_async_generator chunks none (some (.resolved (.nonStats ty))) finish_message =
      (chunks.map fun c => Event.frame (chunkFrame c)) ++
      [Event.awaitedUsage,
       Event.report (.valueError ("Expected LettaUsageStatistics, got " ++ ty)),
       Event.frame internalFrame] ++
      (if finish_message then [Event.frame (frameStr SSE_FINISH_MSG)] else []) ∧
    (log_error_to_sentry sentryDsn
        (.valueError ("Expected LettaUsageStatistics, got " ++ ty))).printedTraceback =
      true ∧
    (log_error_to_sentry sentryDsn
        (.valueError ("Expected LettaUsageStatistics, got " ++ ty))).warned = true ∧
    (log_error_to_sentry sentryDsn
        (.valueError ("Expected LettaUsageStatistics, got " ++ ty))).warningMsg =
      "SSE stream generator failed: " ++ ("Expected LettaUsageStatistics, got " ++ ty) ∧
    ((log_error_to_sentry sentryDsn
        (.valueError ("Expected LettaUsageStatistics, got " ++ ty))).capturedToSentry =
        true ↔ sentryDsn ≠ none ∧ sentryDsn ≠ some "") := by
  refine ⟨?_, rfl, rfl, rfl, ?_⟩
  · rw [sse_ok_trace chunks _ finish_message hw]
    simp [usageEvents]
  · cases sentryDsn with
    | none => simp [log_error_to_sentry]
    | some s =>
      simp only [log_error_to_sentry, ne_eq, Option.some.injEq, Bool.not_eq_true',
        beq_eq_false_iff_ne]
      constructor
      · intro h
        exact ⟨by simp, by simpa using h⟩
      · intro h
        simpa using h.2

/-- Witness for C10 with a set, non-empty `SENTRY_DSN`. -/
theorem c10_witness :
    sse_async_generator [Chunk.other "a"] none
        (some (.resolved (.nonStats "<class 'dict'>"))) true =
      ([Chunk.other "a"].map fun c => Event.frame (chunkFrame c)) ++
      [Event.awaitedUsage,
       Event.report (.valueError ("Expected LettaUsageStatistics, got " ++ "<class 'dict'>")),
       Event.frame internalFrame] ++
      (if true then [Event.frame (frameStr SSE_FINISH_MSG)] else []) ∧
    (log_error_to_sentry (some "https://sentry.example/1")
        (.valueError ("Expected LettaUsageStatistics, got " ++ "<class 'dict'>"))).printedTraceback =
      true ∧
    (log_error_to_sentry (some "https://sentry.example/1")
        (.valueError ("Expected LettaUsageStatistics, got " ++ "<class 'dict'>"))).warned = true ∧
    (log_error_to_sentry (some "https://sentry.example/1")
        (.valueError ("Expected LettaUsageStatistics, got " ++ "<class 'dict'>"))).warningMsg =
      "SSE stream generator failed: " ++ ("Expected LettaUsageStatistics, got " ++ "<class 'dict'>") ∧
    ((log_error_to_sentry (some "https://sentry.example/1")
        (.valueError ("Expected LettaUsageStatistics, got " ++ "<class 'dict'>"))).capturedToSentry =
        true ↔ (some "https://sentry.example/1" : Option String) ≠ none ∧
          (some "https://sentry.example/1" : Option String) ≠ some "") :=
  c10_theorem [Chunk.other "a"] "<class 'dict'>" true (some "https://sentry.example/1")
    (by decide)

/-- C7 counterexample: a plain-text chunk containing a raw newline is
framed verbatim, and the resulting frame
`"data: a\nb\n\n"` does not match `^data: .*\n\n$` (the `.` of the regex
does not cross a newline), so the claimed invariant fails on this
emitted frame. -/
theorem c7_claim_counterexample :
    frameStr "a\nb" ∈ framesOf (sse_async_generator [Chunk.other "a\nb"] none none true) ∧
    matchesSSE (frameStr "a\nb") = false := by
  decide

/-- C7 (amended: frames built from string payloads are guaranteed to match
the regex only when the normalized string contains no raw newline —
JSON-framed payloads always match, their strings being escaped): in every
scenario, every emitted frame matches `^data: .*\n\n$` and is non-empty,
provided each chunk that normalizes to a plain string contains no newline
character; the terminal frame body is the literal `[DONE]` (last
conjunct). -/
theorem c7_amended_theorem (chunks : List Chunk) (genFailure : Option PyExn)
    (usage_task : Option UsageOutcome) (finish_message : Bool)
    (h : ∀ c ∈ chunks, noNLChunk c = true) :
    (∀ f ∈ framesOf (sse_async_generator chunks genFailure usage_task finish_message),
      matchesSSE f = true ∧ f ≠ "") ∧
    frameStr SSE_FINISH_MSG = "data: " ++ "[DONE]" ++ "\n\n" := by
  refine ⟨?_, rfl⟩
  intro f hf
  suffices hm : matchesSSE f = true from ⟨hm, matchesSSE_ne_empty f hm⟩
  have hgood := framesOf_chunkLoop_good chunks h
  have hdone : ∀ b : Bool,
      ∀ g ∈ framesOf (if b then [Event.frame (frameStr SSE_FINISH_MSG)] else []),
        matchesSSE g = true := by
    intro b g hg
    cases b <;> simp [framesOf] at hg
    subst hg
    decide
  simp only [sse_async_generator] at hf
  rcases hr : chunkLoop chunks with ⟨evs, ex⟩
  rw [hr] at hf
  have hgood1 : ∀ g ∈ framesOf evs, matchesSSE g = true := by
    intro g hg
    exact hgood g (by rw [hr]; exact hg)
  cases ex with
  | some e =>
    simp only [framesOf_append] at hf
    rcases List.mem_append.mp hf with hf | hf
    · rcases List.mem_append.mp hf with hf | hf
      · exact hgood1 f hf
      · have : f = decoderFrame := by simpa [framesOf] using hf
        subst this
        decide
    · exact hdone finish_message f hf
  | none =>
    cases genFailure with
    | some e =>
      simp only [framesOf_append] at hf
      rcases List.mem_append.mp hf with hf | hf
      · rcases List.mem_append.mp hf with hf | hf
        · exact hgood1 f hf
        · have : f = decoderFrame := by simpa [framesOf] using hf
          subst this
          decide
      · exact hdone finish_message f hf
    | none =>
      simp only [framesOf_append] at hf
      rcases List.mem_append.mp hf with hf | hf
      · rcases List.mem_append.mp hf with hf | hf
        · exact hgood1 f hf
        · exact framesOf_usageEvents_good usage_task f hf
      · exact hdone finish_message f hf

/-- Witness for C7 (amended): a stream exercising all frame producers —
every normalization shape, a failing generator is not needed since the
usage-error path is covered by the raised context-window failure. -/
theorem c7_amended_witness :
    (∀ f ∈ framesOf (sse_async_generator
        [Chunk.baseModel [("id", .jstr "m1")], Chunk.enumV "3", Chunk.dictC [("k", .jnull)],
         Chunk.other "text"]
        none (some (.raised (.contextWindowExceeded "too long"
          (some "context_window_exceeded")))) true),
      matchesSSE f = true ∧ f ≠ "") ∧
    frameStr SSE_FINISH_MSG = "data: " ++ "[DONE]" ++ "\n\n" :=
  c7_amended_theorem
    [Chunk.baseModel [("id", .jstr "m1")], Chunk.enumV "3", Chunk.dictC [("k", .jnull)],
     Chunk.other "text"]
    none (some (.raised (.contextWindowExceeded "too long" (some "context_window_exceeded"))))
    true (by decide)

end SSEModel
